import Mathlib

/-!
Shallow embedding of `graph/examples/validate.rs` (schema validation and
size-profiling tool) and proofs about the claims of its specification.

External collaborators (the GraphQL grammar parser, the semantic-schema
validator `InputSchema`, the API-schema derivation and the deployment-hash
format check) are out of scope per the spec ("specified only at their
interface") and are modelled as an abstract `Externals` record of
state-transforming functions.  The state threaded through every external
call is `St ω = Nat × ω`: the process-wide `ALLOCATED` counter paired with
an abstract rest-of-the-world component `ω` (heap contents, lazy statics).
-/

namespace SchemaValidate

/-! ## GraphQL document fragment inspected by `subgraph_id` -/

/-- Modelled from the spec: a GraphQL value as far as the identifier
extractor inspects it — either a string value or anything else
(`s::Value::String(s)` vs. the catch-all `_` arm in `subgraph_id`). -/
inductive GqlValue where
  | str (s : String)
  | other
deriving DecidableEq

/-- Modelled from the spec: a directive attached to an object type,
carrying a name and named arguments (`s::Directive`). -/
structure GqlDirective where
  name : String
  arguments : List (String × GqlValue)
deriving DecidableEq

/-- Modelled from the spec: an object-type definition carrying its
directives (`s::ObjectType`, as far as the extractor inspects it). -/
structure GqlObjectType where
  directives : List GqlDirective
deriving DecidableEq

/-- Modelled from the spec: a parsed generic document, reduced to the list
of its object-type definitions (all that `subgraph_id` looks at). -/
structure GqlDocument where
  object_types : List GqlObjectType
deriving DecidableEq

/-- Modelled from the spec: `DocumentExt::get_object_type_definitions`,
the object-type definitions of the document in document order. -/
def GqlDocument.get_object_type_definitions (d : GqlDocument) : List GqlObjectType :=
  d.object_types

/-- Modelled from the spec: `DirectiveFinder::find_directive` — the first
directive with the given name attached to the type. -/
def GqlObjectType.find_directive (t : GqlObjectType) (n : String) : Option GqlDirective :=
  t.directives.find? (fun d => d.name == n)

/-- Modelled from the spec: `DirectiveExt::argument` — the value of the
first argument with the given name. -/
def GqlDirective.argument (d : GqlDirective) (n : String) : Option GqlValue :=
  (d.arguments.find? (fun a => a.1 == n)).map Prod.snd

/-! ## Outcomes, deployment hashes, externals -/

/-- Result of a fallible computation, distinguishing a recoverable
`Result::Err` from a Rust panic (`expect`): the spec treats the two very
differently (recoverable diagnostic vs. fatal abort). -/
inductive Outcome (α : Type) where
  | ok (a : α)
  | err (msg : String)
  | panicked (msg : String)
deriving DecidableEq

/-- A validated deployment identifier (`DeploymentHash`): a wrapped string
token.  Which strings are valid is external (`Externals.isValidDeploymentHash`). -/
structure DeploymentHash where
  hash : String
deriving DecidableEq

/-- The two specification versions the tool passes to the semantic
validator: the pinned `SPEC_VERSION_1_1_0` and the "latest" version used
by `InputSchema::parse_latest`. -/
inductive SpecVersion where
  | v1_1_0
  | latest
deriving DecidableEq

/-- Opaque handle for a validated semantic schema (`InputSchema`). -/
structure InputSchema where
  handle : Nat
deriving DecidableEq

/-- Opaque handle for a derived API schema (`ApiSchema`). -/
structure ApiSchema where
  handle : Nat
deriving DecidableEq

/-- Allocation-counter-and-world state threaded through external calls:
the `ALLOCATED` counter paired with the abstract rest of the world. -/
abbrev St (ω : Type) := Nat × ω

/-- The external collaborators, specified only at their interface (spec §1):
the grammar parser, the deployment-hash format check, the semantic
validator (keyed by specification version), the API-schema derivation, the
serialized text length of an API schema, and the elapsed wall-clock
reading (abstracted to a constant, since no claim constrains it).  Each
fallible collaborator is a state transformer on `St ω` so that its
allocation effect on the `ALLOCATED` counter is visible to the profiler. -/
structure Externals (ω : Type) where
  parse_schema : String → St ω → St ω × Except String GqlDocument
  isValidDeploymentHash : String → Bool
  inputSchema_parse : SpecVersion → String → String → St ω → St ω × Except String InputSchema
  api_schema : InputSchema → St ω → St ω × Except String ApiSchema
  api_text_len : ApiSchema → Nat
  elapsed_ns : Nat

/-- Modelled from the spec: `DeploymentHash::new` — validates the string
against the deployment-hash format and wraps it. -/
def DeploymentHash.new {ω : Type} (E : Externals ω) (s : String) : Option DeploymentHash :=
  if E.isValidDeploymentHash s then some ⟨s⟩ else none

/-! ## Identifier extractor (`subgraph_id`, validate.rs lines 97-109) -/

/-- Embedding of `subgraph_id`: first object-type definition, its `subgraphId`
directive, that directive's `id` argument as a string, defaulting to
`"unknown"`; the result is validated as a deployment hash, and an invalid
value is a panic (`expect`), not a recoverable error. -/
def subgraph_id {ω : Type} (E : Externals ω) (schema : GqlDocument) : Outcome DeploymentHash :=
  let id := ((((schema.get_object_type_definitions.head?).bind
      (fun obj_type => obj_type.find_directive "subgraphId")).bind
      (fun dir => dir.argument "id")).bind
      (fun arg => match arg with
        | GqlValue.str s => some s
        | _ => none)).getD "unknown"
  match DeploymentHash.new E id with
  | some h => Outcome.ok h
  | none => Outcome.panicked "subgraph id is not a valid deployment hash"

/-! ## Validation pipeline (`parse`, validate.rs lines 155-175)

Besides the state and the outcome, `parse` returns the list of pipeline
stages it executed, in order, one entry recorded at each external call
site (the identifier extraction itself is pure and not a stage). -/

/-- A pipeline stage, as executed: the generic grammar parse, the semantic
validation (tagged with the specification version passed to the external
validator), the API-schema derivation, and the measurement of the derived
schema's serialized text length. -/
inductive Stage where
  | genericParse
  | semanticValidation (v : SpecVersion)
  | derivation
  | apiTextMeasure
deriving DecidableEq

/-- Embedding of `parse`: the pipeline entry point.  Generic parse (error formatted
with the source name), identifier extraction (may panic), semantic
validation against the pinned version 1.1.0 (error formatted with name
and id), then — only when `api` is set — API-schema derivation. -/
def parse {ω : Type} (E : Externals ω) (raw name : String) (api : Bool) (s : St ω) :
    St ω × List Stage × Outcome DeploymentHash :=
  match E.parse_schema raw s with
  | (s1, Except.error e) =>
      (s1, [Stage.genericParse],
        Outcome.err ("Failed to parse schema sgd" ++ name ++ ": " ++ e))
  | (s1, Except.ok schema) =>
    match subgraph_id E schema with
    | Outcome.panicked m => (s1, [Stage.genericParse], Outcome.panicked m)
    | Outcome.err m => (s1, [Stage.genericParse], Outcome.err m)
    | Outcome.ok id =>
      match E.inputSchema_parse SpecVersion.v1_1_0 raw id.hash s1 with
      | (s2, Except.error e) =>
          (s2, [Stage.genericParse, Stage.semanticValidation SpecVersion.v1_1_0],
            Outcome.err ("InputSchema: " ++ name ++ "[" ++ id.hash ++ "]: " ++ e))
      | (s2, Except.ok input_schema) =>
        if api then
          match E.api_schema input_schema s2 with
          | (s3, Except.error e) =>
              (s3, [Stage.genericParse, Stage.semanticValidation SpecVersion.v1_1_0,
                    Stage.derivation],
                Outcome.err ("ApiSchema: " ++ name ++ "[" ++ id.hash ++ "]: " ++ e))
          | (s3, Except.ok _api_schema) =>
              (s3, [Stage.genericParse, Stage.semanticValidation SpecVersion.v1_1_0,
                    Stage.derivation],
                Outcome.ok id)
        else
          (s2, [Stage.genericParse, Stage.semanticValidation SpecVersion.v1_1_0],
            Outcome.ok id)

/-! ## The size-measurement protocol (`Sizer::size`, validate.rs lines 217-223) -/

/-- Embedding of `Sizer::size`: run `f` once and discard the result (warm-up), store 0
into `ALLOCATED`, run `f` again, load `ALLOCATED`, and return the loaded
value paired with the second run's result.  Either failing run's error is
returned as-is. -/
def Sizer.size {ω τ : Type} (f : St ω → St ω × Except String τ) (w : St ω) :
    St ω × Except String (Nat × τ) :=
  match f w with
  | (w1, Except.error e) => (w1, Except.error e)
  | (w1, Except.ok _) =>
    match f (0, w1.2) with
    | (w3, Except.error e) => (w3, Except.error e)
    | (w3, Except.ok t) => (w3, Except.ok (w3.1, t))

/-! ## The profiler record (`Sizes`) and `Sizer::collect_sizes` (lines 225-248) -/

/-- The per-source measurement record (`Sizes`): raw text byte length,
measured allocation deltas of the three pipeline stages, serialized API
schema text length, and the elapsed time in nanoseconds. -/
structure Sizes where
  text : Nat
  gql : Nat
  input : Nat
  api : Nat
  api_text : Nat
  time : Nat
deriving DecidableEq

/-- Embedding of `Sizer::collect_sizes`: one full (priming and timed) pipeline run via
`parse` with derivation forced on, then three `Sizer.size`-bracketed
measurements — the generic parse, the semantic validation against the
"latest" specification version (`InputSchema::parse_latest`), and the
API-schema derivation — followed by the serialized API text length.
Returns the executed stage list alongside state and outcome (each
measured stage is recorded once in the list; the measurement protocol
itself runs it twice). -/
def Sizer.collect_sizes {ω : Type} (E : Externals ω) (raw name : String) (s : St ω) :
    St ω × List Stage × Outcome Sizes :=
  match parse E raw name true s with
  | (s1, tr, Outcome.err e) => (s1, tr, Outcome.err e)
  | (s1, tr, Outcome.panicked m) => (s1, tr, Outcome.panicked m)
  | (s1, tr, Outcome.ok id) =>
    let elapsed := E.elapsed_ns
    let txt_size := raw.utf8ByteSize
    match Sizer.size (fun w => E.parse_schema raw w) s1 with
    | (s2, Except.error e) => (s2, tr ++ [Stage.genericParse], Outcome.err e)
    | (s2, Except.ok (gql_size, _)) =>
      match Sizer.size (fun w => E.inputSchema_parse SpecVersion.latest raw id.hash w) s2 with
      | (s3, Except.error e) =>
          (s3, tr ++ [Stage.genericParse, Stage.semanticValidation SpecVersion.latest],
            Outcome.err e)
      | (s3, Except.ok (input_size, input_schema)) =>
        match Sizer.size (fun w => E.api_schema input_schema w) s3 with
        | (s4, Except.error e) =>
            (s4, tr ++ [Stage.genericParse, Stage.semanticValidation SpecVersion.latest,
                  Stage.derivation],
              Outcome.err e)
        | (s4, Except.ok (api_size, api)) =>
          let api_text := E.api_text_len api
          (s4, tr ++ [Stage.genericParse, Stage.semanticValidation SpecVersion.latest,
                Stage.derivation, Stage.apiTextMeasure],
            Outcome.ok { text := txt_size, gql := gql_size, input := input_size,
                         api := api_size, api_text := api_text, time := elapsed })

/-! ## Runners, process model -/

/-- How the process ends: a normal `exit(code)` or a Rust panic (an
`expect` failure; the Rust runtime terminates a panicking process with its
own nonzero status, distinct from `exit(1)`). -/
inductive PExit where
  | exited (code : Nat)
  | panicked (msg : String)
deriving DecidableEq

/-- The run mode selected by `--mode`. -/
inductive RunMode where
  | validate
  | size
deriving DecidableEq

/-- The parsed CLI options (`Opts`). -/
structure Opts where
  batch : Bool
  api : Bool
  mode : RunMode
  schemas : List String

/-- The CSV header line printed by the size runner. -/
def csvHeader : String := "name,raw,gql,input,api,api_text,time_ns"

/-- The exact fields of a size-mode data row, in header order:
`name,raw,gql,input,api,api_text,time_ns` maps to
`name, text, gql, input, api, api_text, time` of the record. -/
def sizeRowFields (name : String) (z : Sizes) : List String :=
  [name, toString z.text, toString z.gql, toString z.input, toString z.api,
   toString z.api_text, toString z.time]

/-- A printed size-mode data row (embedding of
`println!("\x7bname\x7d,\x7b\x7d,...", text, gql, input, api, api_text,
time_ns)`): the seven fields joined by commas. -/
def sizeRow (name : String) (z : Sizes) : String :=
  name ++ "," ++ toString z.text ++ "," ++ toString z.gql ++ "," ++ toString z.input
    ++ "," ++ toString z.api ++ "," ++ toString z.api_text ++ "," ++ toString z.time

/-- Embedding of `Validator::run` (lines 183-195): run the pipeline; on success print a
pass line to stdout; on a recoverable error print `Error: ...` to stdout
and `exit(1)`; a panic propagates.  Returns (state, stdout lines, stderr
lines, halt). -/
def Validator.run {ω : Type} (E : Externals ω) (raw name : String) (api : Bool) (s : St ω) :
    St ω × List String × List String × Option PExit :=
  match parse E raw name api s with
  | (s', _, Outcome.ok id) =>
      (s', ["Schema " ++ name ++ "[" ++ id.hash ++ "]: OK"], [], none)
  | (s', _, Outcome.err e) =>
      (s', ["Error: " ++ e], [], some (PExit.exited 1))
  | (s', _, Outcome.panicked m) => (s', [], [], some (PExit.panicked m))

/-- Embedding of `Sizer::run` (lines 251-274): print the CSV header to stdout if this
is the first invocation (the `first` flag is cleared unconditionally);
collect the sizes; on success print the data row to stdout; on a
recoverable error print `Error: ...` to stderr and `exit(1)`.  The `api`
argument is received but ignored (`_api` in the source).  Returns
(new first flag, state, stdout lines, stderr lines, halt). -/
def Sizer.run {ω : Type} (E : Externals ω) (first : Bool) (raw name : String) (_api : Bool)
    (s : St ω) : Bool × St ω × List String × List String × Option PExit :=
  let hdr : List String := if first then [csvHeader] else []
  match Sizer.collect_sizes E raw name s with
  | (s', _, Outcome.ok z) => (false, s', hdr ++ [sizeRow name z], [], none)
  | (s', _, Outcome.err e) => (false, s', hdr, ["Error: " ++ e], some (PExit.exited 1))
  | (s', _, Outcome.panicked m) => (false, s', hdr, [], some (PExit.panicked m))

/-- Dynamic dispatch on the runner (`Box<dyn Runner>`): one step of
`runner.run(raw, name, api)` for either mode, threading the sizer's
`first` flag. -/
def runStep {ω : Type} (E : Externals ω) (mode : RunMode) (api : Bool) (first : Bool)
    (raw name : String) (s : St ω) :
    Bool × St ω × List String × List String × Option PExit :=
  match mode with
  | RunMode.validate =>
    match Validator.run E raw name api s with
    | (s', out, errs, halt) => (first, s', out, errs, halt)
  | RunMode.size => Sizer.run E first raw name api s

/-! ## Source reader: batch-line decoding (`Entry`, serde_json, lines 289-302) -/

/-- A decoded batch record (`Entry`): numeric id and schema text. -/
structure Entry where
  id : Int
  schema : String
deriving DecidableEq

/-- The collapse of doubled backslashes applied by `main` to each batch
line: `line.replace("\\\\", "\\")` — leftmost non-overlapping
replacement of every two consecutive backslash characters by one. -/
def collapseBackslashesList : List Char → List Char
  | '\\' :: '\\' :: rest => '\\' :: collapseBackslashesList rest
  | c :: rest => c :: collapseBackslashesList rest
  | [] => []

/-- String form of the doubled-backslash collapse. -/
def collapseBackslashes (s : String) : String :=
  String.mk (collapseBackslashesList s.toList)

/-- JSON whitespace skipping. -/
def skipWs : List Char → List Char
  | c :: cs => if c = ' ' ∨ c = '\t' ∨ c = '\n' ∨ c = '\r' then skipWs cs else c :: cs
  | [] => []

/-- Modelled from the spec: the JSON short escape characters
(`\" \\ \/ \b \f \n \r \t`). -/
def jsonEscChar : Char → Option Char
  | '"' => some '"'
  | '\\' => some '\\'
  | '/' => some '/'
  | 'b' => some (Char.ofNat 8)
  | 'f' => some (Char.ofNat 12)
  | 'n' => some '\n'
  | 'r' => some (Char.ofNat 13)
  | 't' => some '\t'
  | _ => none

/-- Modelled from the spec: the body of a JSON string after its opening
quote — ordinary characters (control characters rejected) and short
escapes, up to the closing quote.  (`\uXXXX` escapes are outside the
model.)  Returns the decoded characters and the remaining input. -/
def parseStringBody : List Char → Option (List Char × List Char)
  | [] => none
  | '"' :: rest => some ([], rest)
  | '\\' :: e :: rest =>
    match jsonEscChar e with
    | none => none
    | some c => (parseStringBody rest).map (fun p => (c :: p.1, p.2))
  | c :: rest =>
    if c.toNat < 32 then none
    else (parseStringBody rest).map (fun p => (c :: p.1, p.2))

/-- Leading decimal digits of the input. -/
def takeDigits : List Char → List Char × List Char
  | [] => ([], [])
  | c :: cs =>
    if c.isDigit then
      let (ds, rest) := takeDigits cs
      (c :: ds, rest)
    else ([], c :: cs)

/-- Numeric value of a digit list. -/
def digitsVal (ds : List Char) : Nat :=
  ds.foldl (fun a c => a * 10 + (c.toNat - 48)) 0

/-- JSON forbids redundant leading zeros. -/
def noLeadingZero : List Char → Bool
  | '0' :: _ :: _ => false
  | _ => true

/-- Modelled from the spec: a JSON integer within the `i32` range (the
`id` field), with optional minus sign and no leading zeros. -/
def parseJsonInt (cs : List Char) : Option (Int × List Char) :=
  match cs with
  | '-' :: rest =>
    match takeDigits rest with
    | ([], _) => none
    | (ds, rest') =>
      if noLeadingZero ds ∧ digitsVal ds ≤ 2147483648 then
        some (-(Int.ofNat (digitsVal ds)), rest')
      else none
  | _ =>
    match takeDigits cs with
    | ([], _) => none
    | (ds, rest') =>
      if noLeadingZero ds ∧ digitsVal ds ≤ 2147483647 then
        some (Int.ofNat (digitsVal ds), rest')
      else none

/-- Modelled from the spec: the members of the batch-record JSON object —
exactly one `"id"` integer member and one `"schema"` string member, in
either order.  Fueled recursion (each member consumes input). -/
def parseMembers : Nat → List Char → Option Int → Option String →
    Option ((Int × String) × List Char)
  | 0, _, _, _ => none
  | Nat.succ fuel, cs, mid, msch =>
    match skipWs cs with
    | '"' :: rest =>
      match parseStringBody rest with
      | none => none
      | some (keyChars, rest1) =>
        match skipWs rest1 with
        | ':' :: rest2 =>
          let rest2 := skipWs rest2
          let step : Option (Option Int × Option String × List Char) :=
            if String.mk keyChars = "id" then
              match mid with
              | some _ => none
              | none =>
                match parseJsonInt rest2 with
                | none => none
                | some (v, rest3) => some (some v, msch, rest3)
            else if String.mk keyChars = "schema" then
              match msch, rest2 with
              | some _, _ => none
              | none, '"' :: rest3 =>
                match parseStringBody rest3 with
                | none => none
                | some (strChars, rest4) => some (mid, some (String.mk strChars), rest4)
              | none, _ => none
            else none
          match step with
          | none => none
          | some (mid', msch', rest3) =>
            match skipWs rest3 with
            | ',' :: rest4 => parseMembers fuel rest4 mid' msch'
            | '\x7d' :: rest4 =>
              match mid', msch' with
              | some i, some sch => some ((i, sch), rest4)
              | _, _ => none
            | _ => none
        | _ => none
    | _ => none

/-- Modelled from the spec: `serde_json::from_str::<Entry>` on one batch
line — a JSON object with an integer `id` and a string `schema`, with
nothing but whitespace after it. -/
def decodeEntry (line : String) : Option Entry :=
  match skipWs line.toList with
  | '\x7b' :: rest =>
    match parseMembers (rest.length + 1) rest none none with
    | none => none
    | some ((i, sch), rest') =>
      if (skipWs rest').isEmpty then some ⟨i, sch⟩ else none
  | _ => none

/-- Split on newline characters (embedding of `str::split('\n')` as used
by `BufRead::lines` before trailing-fragment and `\r` handling). -/
def splitNl : List Char → List (List Char)
  | [] => [[]]
  | '\n' :: rest => [] :: splitNl rest
  | c :: rest =>
    match splitNl rest with
    | [] => [[c]]
    | p :: ps => (c :: p) :: ps

/-- Embedding of `BufRead::lines` on a file's full contents: split on `'\n'`, drop the
final empty fragment produced by a trailing newline, and strip one
trailing `'\r'` from each line. -/
def rustLines (s : String) : List String :=
  let parts := splitNl s.toList
  let parts := if parts.getLast? = some [] then parts.dropLast else parts
  parts.map (fun l => String.mk (if l.getLast? = some (Char.ofNat 13) then l.dropLast else l))

/-! ## `main` (lines 276-309) -/

/-- The file system visible to the process: path ↦ file contents.
A path that is absent fails to open/read. -/
abbrev FileSystem := List (String × String)

/-- Contents of a file, if it exists. -/
def readFile (fs : FileSystem) (p : String) : Option String :=
  (fs.find? (fun kv => kv.1 == p)).map Prod.snd

/-- Accumulated observable result of a source-processing loop: the sizer
`first` flag, the allocation state, the `(name, raw)` pairs handed to the
runner, the stdout and stderr lines, and an optional halt. -/
structure LoopOut (ω : Type) where
  first : Bool
  st : St ω
  handed : List (String × String)
  stdout : List String
  stderr : List String
  halt : Option PExit

/-- The loop body of `main` over the lines of one batch file: collapse
doubled backslashes in the line, decode it as an `Entry` (a decode
failure is the `expect("line is valid json")` panic), synthesize the name
`"sgd" ++ id`, and hand the record's schema to the runner; stop at the
first halting step. -/
def runBatchLines {ω : Type} (E : Externals ω) (mode : RunMode) (api : Bool) :
    List String → Bool → St ω → LoopOut ω
  | [], first, s => ⟨first, s, [], [], [], none⟩
  | line :: rest, first, s =>
    match decodeEntry (collapseBackslashes line) with
    | none => ⟨first, s, [], [], [], some (PExit.panicked "line is valid json")⟩
    | some entry =>
      let name := "sgd" ++ toString entry.id
      match runStep E mode api first entry.schema name s with
      | (first', s', out, errs, some ex) =>
        ⟨first', s', [(name, entry.schema)], out, errs, some ex⟩
      | (first', s', out, errs, none) =>
        let r := runBatchLines E mode api rest first' s'
        ⟨r.first, r.st, (name, entry.schema) :: r.handed, out ++ r.stdout,
          errs ++ r.stderr, r.halt⟩

/-- The loop of `main` over the schema path arguments.  In batch mode each
path is opened (a missing file is the `expect("file exists")` panic), its
lines are processed by `runBatchLines`; otherwise the file is read whole
and handed to the runner under its path as name.  A progress line is
printed to stderr before each file is opened. -/
def mainLoop {ω : Type} (E : Externals ω) (batch : Bool) (mode : RunMode) (api : Bool)
    (fs : FileSystem) : List String → Bool → St ω → LoopOut ω
  | [], first, s => ⟨first, s, [], [], [], none⟩
  | path :: rest, first, s =>
    if batch then
      let progress := "Validating schemas from " ++ path
      match readFile fs path with
      | none => ⟨first, s, [], [], [progress], some (PExit.panicked "file exists")⟩
      | some content =>
        match runBatchLines E mode api (rustLines content) first s with
        | ⟨first', s', handed, out, errs, some ex⟩ =>
          ⟨first', s', handed, out, progress :: errs, some ex⟩
        | ⟨first', s', handed, out, errs, none⟩ =>
          let r := mainLoop E batch mode api fs rest first' s'
          ⟨r.first, r.st, handed ++ r.handed, out ++ r.stdout,
            (progress :: errs) ++ r.stderr, r.halt⟩
    else
      let progress := "Validating schema from " ++ path
      match readFile fs path with
      | none => ⟨first, s, [], [], [progress], some (PExit.panicked "file exists")⟩
      | some raw =>
        match runStep E mode api first raw path s with
        | (first', s', out, errs, some ex) =>
          ⟨first', s', [(path, raw)], out, [progress] ++ errs, some ex⟩
        | (first', s', out, errs, none) =>
          let r := mainLoop E batch mode api fs rest first' s'
          ⟨r.first, r.st, (path, raw) :: r.handed, out ++ r.stdout,
            ([progress] ++ errs) ++ r.stderr, r.halt⟩

/-- The observable result of the whole process: stdout, stderr, exit. -/
structure ProcOut where
  stdout : List String
  stderr : List String
  exit : PExit
deriving DecidableEq

/-- Embedding of `main`: run the loop over all schema arguments with the sizer's
`first` flag initially set; falling off the end of `main` is `exit 0`. -/
def mainRun {ω : Type} (E : Externals ω) (opts : Opts) (fs : FileSystem) (s : St ω) : ProcOut :=
  match mainLoop E opts.batch opts.mode opts.api fs opts.schemas true s with
  | ⟨_, _, _, out, errs, some ex⟩ => ⟨out, errs, ex⟩
  | ⟨_, _, _, out, errs, none⟩ => ⟨out, errs, PExit.exited 0⟩

/-! ## The allocation counter (`Counter`, validate.rs lines 56-78) -/

/-- The modulus of the `usize` counter `ALLOCATED` on the 64-bit
platforms this tool targets: `AtomicUsize::fetch_add`/`fetch_sub` wrap
modulo `2^64`. -/
def USIZE_MOD : Nat := 2 ^ 64

/-- Embedding of `Counter::alloc`: the underlying allocation is attempted first; the
counter is increased by the layout size only when it succeeded (returned
non-null), with wrapping addition. -/
def Counter.alloc (c size : Nat) (succeeded : Bool) : Nat :=
  if succeeded then (c + size) % USIZE_MOD else c

/-- Embedding of `Counter::dealloc`: the counter is decreased by the layout size
unconditionally, with wrapping subtraction. -/
def Counter.dealloc (c size : Nat) : Nat :=
  (c + (USIZE_MOD - size % USIZE_MOD)) % USIZE_MOD

/-! ## CSV field counting -/

/-- The number of comma-separated fields of a line: one more than its
number of comma characters (splitting on a one-character separator). -/
def countCommaFields (s : String) : Nat :=
  (s.toList.filter (fun c => c = ',')).length + 1

/-! ## Spec-side description of the identifier extraction (claim C3) -/

/-- The identifier string as the claim describes its extraction: take the
first object-type definition, look for the `subgraphId` directive on it,
read the directive's `id` argument as a string value, and default to the
sentinel literal `"unknown"` otherwise.  Stated independently of
`subgraph_id` so the two can be compared. -/
def claimedIdString (doc : GqlDocument) : String :=
  match doc.get_object_type_definitions.head? with
  | none => "unknown"
  | some obj_type =>
    match obj_type.find_directive "subgraphId" with
    | none => "unknown"
    | some dir =>
      match dir.argument "id" with
      | some (GqlValue.str s) => s
      | _ => "unknown"

/-! ## Concrete test fixtures (externals instances used by witnesses and
counterexamples) -/

/-- A document whose first object type carries
`@subgraphId(id: "Qm123")`. -/
def docWithId : GqlDocument :=
  ⟨[⟨[⟨"subgraphId", [("id", GqlValue.str "Qm123")]⟩]⟩]⟩

/-- A document with no object-type definitions at all. -/
def docEmpty : GqlDocument := ⟨[]⟩

/-- Externals where every stage succeeds; each stage allocates a distinct
net amount so measured deltas are distinguishable. -/
def extGood : Externals Unit where
  parse_schema := fun _ s => ((s.1 + 3, s.2), Except.ok docWithId)
  isValidDeploymentHash := fun _ => true
  inputSchema_parse := fun v _ _ s =>
    ((s.1 + (match v with | SpecVersion.v1_1_0 => 5 | SpecVersion.latest => 7), s.2),
      Except.ok ⟨1⟩)
  api_schema := fun _ s => ((s.1 + 11, s.2), Except.ok ⟨2⟩)
  api_text_len := fun _ => 42
  elapsed_ns := 9

/-- Externals whose grammar parser always fails. -/
def extParseFail : Externals Unit where
  parse_schema := fun _ s => (s, Except.error "bad syntax")
  isValidDeploymentHash := fun _ => true
  inputSchema_parse := fun _ _ _ s => (s, Except.error "unreachable")
  api_schema := fun _ s => (s, Except.error "unreachable")
  api_text_len := fun _ => 0
  elapsed_ns := 0

/-- Externals where parsing succeeds with a directiveless document and no
string is a valid deployment hash, so identifier extraction panics. -/
def extBadId : Externals Unit where
  parse_schema := fun _ s => (s, Except.ok docEmpty)
  isValidDeploymentHash := fun _ => false
  inputSchema_parse := fun _ _ _ s => (s, Except.ok ⟨1⟩)
  api_schema := fun _ s => (s, Except.ok ⟨2⟩)
  api_text_len := fun _ => 0
  elapsed_ns := 0

/-- Externals where validation against version 1.1.0 succeeds but
validation against the latest specification version fails. -/
def extLatestFail : Externals Unit where
  parse_schema := fun _ s => (s, Except.ok docWithId)
  isValidDeploymentHash := fun _ => true
  inputSchema_parse := fun v _ _ s =>
    (s, match v with
        | SpecVersion.v1_1_0 => Except.ok ⟨1⟩
        | SpecVersion.latest => Except.error "schema uses features beyond 1.1.0")
  api_schema := fun _ s => (s, Except.ok ⟨2⟩)
  api_text_len := fun _ => 0
  elapsed_ns := 0

/-- The measured stage function used by the C1 witness: allocates a net
5 bytes and returns 42. -/
def c1f : St Unit → St Unit × Except String Nat :=
  fun s => ((s.1 + 5, s.2), Except.ok 42)

/-- A batch line `\x7b"id":1,"schema":"a\\b"\x7d` whose schema field
holds an escaped backslash followed by the letter `b`. -/
def c8line : String := "\x7b\"id\":1,\"schema\":\"a\\\\b\"\x7d"

/-- A well-formed batch line with id 7. -/
def c8good : String := "\x7b\"id\":7,\"schema\":\"s1\"\x7d"

/-- A halting process outcome that the amended C4 allows. -/
def DiagnosedHalt (stdout stderr : List String) (ex : PExit) : Prop :=
  (∃ e, ex = PExit.exited 1 ∧
    (("Error: " ++ e) ∈ stdout ∨ ("Error: " ++ e) ∈ stderr)) ∨
  (∃ m, ex = PExit.panicked m ∧
    (m = "file exists" ∨ m = "line is valid json" ∨
      m = "subgraph id is not a valid deployment hash"))

/-- Shape of the standard output accumulated by size-mode processing:
`first`/`rfirst` are the sizer's first-invocation flag before and after,
`handed` the `(name, raw)` sources actually handed to the runner, and
`recs` the (name, raw, record) triples of the successfully profiled
sources, in order.  Every record's name/raw pair is one of the handed
sources and its measurement record is the result of the profiler's
`collect_sizes` call on exactly that raw text; either nothing ran (flag
still set, no output), or the output is the header followed by one data
row per record. -/
def SizeCsvOut {ω : Type} (E : Externals ω) (first rfirst : Bool) (stdout : List String)
    (handed : List (String × String)) (recs : List (String × String × Sizes)) : Prop :=
  (∀ t ∈ recs, (t.1, t.2.1) ∈ handed ∧
    ∃ s1 s2 tr, Sizer.collect_sizes E t.2.1 t.1 s1 = (s2, tr, Outcome.ok t.2.2)) ∧
  ((first = true ∧ rfirst = true ∧ stdout = [] ∧ recs = []) ∨
   (first = true ∧ rfirst = false ∧
      stdout = csvHeader :: recs.map (fun t => sizeRow t.1 t.2.2)) ∨
   (first = false ∧ rfirst = false ∧
      stdout = recs.map (fun t => sizeRow t.1 t.2.2)))

/-! ## Helper lemmas -/

/-- The function `subgraph_id` in closed form: it extracts exactly the string described
by `claimedIdString` and either validates it or panics. -/
theorem subgraph_id_eq {ω : Type} (E : Externals ω) (doc : GqlDocument) :
    subgraph_id E doc =
      (if E.isValidDeploymentHash (claimedIdString doc) then
        Outcome.ok ⟨claimedIdString doc⟩
      else Outcome.panicked "subgraph id is not a valid deployment hash") := by
  have hchain : ((((doc.get_object_type_definitions.head?).bind
      (fun obj_type => obj_type.find_directive "subgraphId")).bind
      (fun dir => dir.argument "id")).bind
      (fun arg => match arg with
        | GqlValue.str s => some s
        | _ => none)).getD "unknown" = claimedIdString doc := by
    unfold claimedIdString
    cases h1 : doc.get_object_type_definitions.head? with
    | none => simp
    | some t =>
      cases h2 : t.find_directive "subgraphId" with
      | none => simp [h2]
      | some d =>
        cases h3 : d.argument "id" with
        | none => simp [h2, h3]
        | some v => cases v <;> simp [h2, h3]
  unfold subgraph_id DeploymentHash.new
  rw [hchain]
  split <;> simp_all

/-- The function `subgraph_id` never returns a recoverable error. -/
theorem subgraph_id_ne_err {ω : Type} (E : Externals ω) (doc : GqlDocument) (m : String) :
    subgraph_id E doc ≠ Outcome.err m := by
  rw [subgraph_id_eq]
  split <;> simp

/-- The only panic `subgraph_id` raises. -/
theorem subgraph_id_panic_msg {ω : Type} (E : Externals ω) (doc : GqlDocument) (m : String)
    (h : subgraph_id E doc = Outcome.panicked m) :
    m = "subgraph id is not a valid deployment hash" := by
  rw [subgraph_id_eq] at h
  revert h
  split
  · simp
  · simp; intro h; simp_all

/-! ## C1 -/

/-- C1: the Size Profiler's measurement operation `Sizer::size` runs `f`
once and discards its result, then resets the allocation tracker of the
resulting state to zero (leaving the rest of the world as the warm-up run
left it, so the warm-up strictly precedes the reset), runs `f` a second
time, and returns the tracker value read after the second run paired with
the second run's result. -/
theorem C1_size_protocol {ω τ : Type} (f : St ω → St ω × Except String τ)
    (w w1 w3 : St ω) (a t : τ)
    (h1 : f w = (w1, Except.ok a)) (h2 : f (0, w1.2) = (w3, Except.ok t)) :
    Sizer.size f w = (w3, Except.ok (w3.1, t)) := by
  simp [Sizer.size, h1, h2]

/-- Witness for C1 at a concrete stage function: `c1f` maps the state
`(3, ())` to `((8, ()), ok 42)` and the reset state `(0, ())` to
`((5, ()), ok 42)`, so the measurement returns counter 5 with result 42. -/
theorem C1_size_protocol_witness :
    Sizer.size c1f (3, ()) = ((5, ()), Except.ok (5, 42)) :=
  C1_size_protocol c1f (3, ()) (8, ()) (5, ()) 42 42 rfl rfl

/-! ## C3 -/

/-- C3: for every parsed document, `subgraph_id` extracts the string
described by the claim — first object-type definition, `subgraphId`
directive, `id` argument as a string value, defaulting to `"unknown"` —
and returns it as a `DeploymentHash` when it passes the deployment-hash
format check, or panics (a fatal abort, not a recoverable error)
otherwise. -/
theorem C3_identifier_extractor {ω : Type} (E : Externals ω) (doc : GqlDocument) :
    (E.isValidDeploymentHash (claimedIdString doc) = true ∧
      subgraph_id E doc = Outcome.ok ⟨claimedIdString doc⟩) ∨
    (E.isValidDeploymentHash (claimedIdString doc) = false ∧
      subgraph_id E doc = Outcome.panicked "subgraph id is not a valid deployment hash") := by
  have h := subgraph_id_eq E doc
  cases hv : E.isValidDeploymentHash (claimedIdString doc) with
  | true => left; exact ⟨rfl, by rw [h, if_pos hv]⟩
  | false => right; exact ⟨rfl, by rw [h, if_neg (by simp [hv])]⟩

/-! ## C10 -/

/-- C10: the allocation counter is a 64-bit unsigned word with wrapping
updates.  Allocation adds only when the underlying allocation succeeded;
deallocation subtracts unconditionally, so freeing `size` bytes right
after a reset to zero wraps the counter to `2^64 - size` — an enormous
value (at least `2^63` for any realistic size) instead of a negative net
delta; and a successful alloc/dealloc pair restores the counter. -/
theorem C10_counter_wrapping :
    (∀ c size, Counter.alloc c size false = c) ∧
    (∀ c size, Counter.alloc c size true = (c + size) % USIZE_MOD) ∧
    (∀ size, 0 < size → size < USIZE_MOD → Counter.dealloc 0 size = USIZE_MOD - size) ∧
    (∀ size, 0 < size → size ≤ 2 ^ 63 → 2 ^ 63 ≤ Counter.dealloc 0 size) ∧
    (∀ c size, c < USIZE_MOD → size < USIZE_MOD →
      Counter.dealloc (Counter.alloc c size true) size = c) := by
  have hM : USIZE_MOD = 18446744073709551616 := by norm_num [USIZE_MOD]
  refine ⟨fun c size => rfl, fun c size => rfl, ?_, ?_, ?_⟩
  · intro size h1 h2; simp only [Counter.dealloc, hM] at *; omega
  · intro size h1 h2; simp only [Counter.dealloc, hM] at *; omega
  · intro c size h1 h2
    simp [Counter.dealloc, Counter.alloc, hM] at *
    omega

/-- Witness for C10: freeing 8 bytes right after a reset leaves the
counter at `2^64 - 8`, and a failed allocation leaves it unchanged. -/
theorem C10_counter_wrapping_witness :
    Counter.dealloc 0 8 = 18446744073709551608 ∧ Counter.alloc 5 9 false = 5 := by
  constructor
  · have h := C10_counter_wrapping.2.2.1 8 (by norm_num) (by norm_num [USIZE_MOD])
    rw [h]; norm_num [USIZE_MOD]
  · exact C10_counter_wrapping.1 5 9

/-! ## C5 -/

/-- C5 counterexample: with externals where every stage succeeds, a size
run with derivation not requested (`api = false`) behaves identically to
one with it requested, and the profiler's stage trace contains both the
derivation stage and the measurement of the derived schema's text length
— refuting the claim that derivation is measured only when requested. -/
theorem C5_counterexample :
    Sizer.run extGood true "xy" "n" false (0, ()) = Sizer.run extGood true "xy" "n" true (0, ()) ∧
    Stage.derivation ∈ (Sizer.collect_sizes extGood "xy" "n" (0, ())).2.1 ∧
    Stage.apiTextMeasure ∈ (Sizer.collect_sizes extGood "xy" "n" (0, ())).2.1 :=
  ⟨rfl, by decide, by decide⟩

/-- C5 amended: in size mode the derivation stage is always executed and
the derived schema's serialized text length always measured, regardless
of the requested-derivation flag: `Sizer::run` ignores its `api` argument
entirely, and every successful `collect_sizes` trace contains the
derivation and API-text-measurement stages. -/
theorem C5_derivation_always {ω : Type} (E : Externals ω) (raw name : String) (s : St ω) :
    (∀ first a b, Sizer.run E first raw name a s = Sizer.run E first raw name b s) ∧
    (∀ s' tr z, Sizer.collect_sizes E raw name s = (s', tr, Outcome.ok z) →
      Stage.derivation ∈ tr ∧ Stage.apiTextMeasure ∈ tr) := by
  constructor
  · intro first a b; rfl
  · intro s' tr z h
    unfold Sizer.collect_sizes at h
    repeat' split at h
    all_goals simp_all
    all_goals simp [← h.2.1]

/-- Witness for C5 at the all-success externals: both conjuncts of the
amended claim applied concretely. -/
theorem C5_derivation_always_witness :
    Sizer.run extGood false "xy" "n" false (0, ()) = Sizer.run extGood false "xy" "n" true (0, ()) ∧
    Stage.derivation ∈ [Stage.genericParse, Stage.semanticValidation SpecVersion.v1_1_0,
      Stage.derivation, Stage.genericParse, Stage.semanticValidation SpecVersion.latest,
      Stage.derivation, Stage.apiTextMeasure] :=
  ⟨(C5_derivation_always extGood "xy" "n" (0, ())).1 false false true,
   ((C5_derivation_always extGood "xy" "n" (0, ())).2 (11, ())
      [Stage.genericParse, Stage.semanticValidation SpecVersion.v1_1_0,
       Stage.derivation, Stage.genericParse, Stage.semanticValidation SpecVersion.latest,
       Stage.derivation, Stage.apiTextMeasure] ⟨2, 3, 7, 11, 42, 9⟩ (by decide)).1⟩

/-! ## Counterexamples for C2, C4, C7, C8 -/

/-- C2 counterexample: with externals whose grammar parser fails, the
pipeline invoked with `derive = true` executes only the generic parse
stage — the derivation stage is not executed even though `derive` is
true, refuting "executed if and only if derive is true". -/
theorem C2_counterexample :
    (parse extParseFail "x" "n" true (0, ())).2.1 = [Stage.genericParse] ∧
    Stage.derivation ∉ (parse extParseFail "x" "n" true (0, ())).2.1 := by decide

/-- C4 counterexample: (validate mode, parse failure) the process exits
with status 1 but the diagnostic `Error: ...` is printed to standard
output — standard error carries only the progress line; and (validate
mode, invalid identifier) an identifier-format failure terminates the
process by panic, not by the status-1 diagnostic path. -/
theorem C4_counterexample :
    (mainRun extParseFail ⟨false, false, RunMode.validate, ["f"]⟩ [("f", "x")] (0, ())).exit
        = PExit.exited 1 ∧
    (mainRun extParseFail ⟨false, false, RunMode.validate, ["f"]⟩ [("f", "x")] (0, ())).stdout
        = ["Error: Failed to parse schema sgdf: bad syntax"] ∧
    (mainRun extParseFail ⟨false, false, RunMode.validate, ["f"]⟩ [("f", "x")] (0, ())).stderr
        = ["Validating schema from f"] ∧
    (mainRun extBadId ⟨false, false, RunMode.validate, ["f"]⟩ [("f", "x")] (0, ())).exit
        = PExit.panicked "subgraph id is not a valid deployment hash" := by decide

/-- C7 counterexample: in size mode on a schema file whose path contains
a comma, the single data row splits into 8 comma-separated fields, not 7
(the header still has 7) — refuting the unconditional 7-field claim. -/
theorem C7_counterexample :
    (mainRun extGood ⟨false, false, RunMode.size, ["a,b"]⟩ [("a,b", "xy")] (0, ())).stdout
        = [csvHeader, "a,b,2,3,7,11,42,9"] ∧
    ((mainRun extGood ⟨false, false, RunMode.size, ["a,b"]⟩ [("a,b", "xy")] (0, ())).stdout.map
        countCommaFields) = [7, 8] := by decide

/-- C8 counterexample: on the batch line `\x7b"id":1,"schema":"a\\b"\x7d`
the schema actually handed to the runner is `"a<backspace>"` (the
collapse runs on the raw line first, so the JSON decoder then reads
`\b` as an escape), while the claim's decode-then-collapse order yields
`"a\b"` with a literal backslash — the two orders disagree. -/
theorem C8_counterexample :
    (runBatchLines extGood RunMode.validate false [c8line] true (0, ())).handed
        = [("sgd1", "a\x08")] ∧
    (decodeEntry c8line).map (fun e => collapseBackslashes e.schema) = some "a\\b" ∧
    ("a\x08" : String) ≠ "a\\b" := by decide

/-! ## C2 -/

/-- C2 amended: the pipeline entry point always performs the generic
parse stage first; on success it returns the DeploymentId extracted from
the parsed document; on failure it returns the first failing stage's
error (generic parse, then semantic validation, then derivation, each
with its distinctive message format and stage trace); and the derivation
stage is executed if and only if derivation is requested AND the generic
parse, identifier extraction and semantic validation all succeeded — the
correction to the claim's unconditional "if and only if derive is
true". -/
theorem C2_pipeline_contract {ω : Type} (E : Externals ω) (raw name : String) (api : Bool)
    (s : St ω) :
    (parse E raw name api s).2.1.head? = some Stage.genericParse ∧
    (∀ id, (parse E raw name api s).2.2 = Outcome.ok id →
      ∃ s1 doc, E.parse_schema raw s = (s1, Except.ok doc) ∧
        subgraph_id E doc = Outcome.ok id) ∧
    (∀ e, (parse E raw name api s).2.2 = Outcome.err e →
      (∃ e0, e = "Failed to parse schema sgd" ++ name ++ ": " ++ e0 ∧
        (parse E raw name api s).2.1 = [Stage.genericParse]) ∨
      (∃ idh e0, e = "InputSchema: " ++ name ++ "[" ++ idh ++ "]: " ++ e0 ∧
        (parse E raw name api s).2.1
          = [Stage.genericParse, Stage.semanticValidation SpecVersion.v1_1_0]) ∨
      (∃ idh e0, e = "ApiSchema: " ++ name ++ "[" ++ idh ++ "]: " ++ e0 ∧ api = true ∧
        (parse E raw name api s).2.1
          = [Stage.genericParse, Stage.semanticValidation SpecVersion.v1_1_0,
             Stage.derivation])) ∧
    (Stage.derivation ∈ (parse E raw name api s).2.1 ↔
      (api = true ∧ ∃ s1 doc id s2 isch,
        E.parse_schema raw s = (s1, Except.ok doc) ∧
        subgraph_id E doc = Outcome.ok id ∧
        E.inputSchema_parse SpecVersion.v1_1_0 raw id.hash s1 = (s2, Except.ok isch))) := by
  rcases hps : E.parse_schema raw s with ⟨s1, r1⟩
  cases r1 with
  | error e =>
    refine ⟨by simp [parse, hps], ?_, ?_, ?_⟩
    · intro id hok; simp [parse, hps] at hok
    · intro e0 he; simp [parse, hps] at he; left
      exact ⟨e, by rw [he], by simp [parse, hps]⟩
    · constructor
      · intro hmem; simp [parse, hps] at hmem
      · rintro ⟨-, s1', doc', id', s2', isch', h1, -, -⟩
        simp at h1
  | ok doc =>
    cases hid : subgraph_id E doc with
    | err m => exact absurd hid (subgraph_id_ne_err E doc m)
    | panicked m =>
      refine ⟨by simp [parse, hps, hid], ?_, ?_, ?_⟩
      · intro id hok; simp [parse, hps, hid] at hok
      · intro e0 he; simp [parse, hps, hid] at he
      · constructor
        · intro hmem; simp [parse, hps, hid] at hmem
        · rintro ⟨-, s1', doc', id', s2', isch', h1, h2, -⟩
          simp at h1
          obtain ⟨h1a, h1b⟩ := h1
          subst h1b
          rw [hid] at h2; simp at h2
    | ok id =>
      rcases his : E.inputSchema_parse SpecVersion.v1_1_0 raw id.hash s1 with ⟨s2, r2⟩
      cases r2 with
      | error e =>
        refine ⟨by simp [parse, hps, hid, his], ?_, ?_, ?_⟩
        · intro id' hok; simp [parse, hps, hid, his] at hok
        · intro e0 he; simp [parse, hps, hid, his] at he; right; left
          exact ⟨id.hash, e, by rw [he], by simp [parse, hps, hid, his]⟩
        · constructor
          · intro hmem; simp [parse, hps, hid, his] at hmem
          · rintro ⟨-, s1', doc', id', s2', isch', h1, h2, h3⟩
            simp at h1
            obtain ⟨h1a, h1b⟩ := h1
            subst h1a; subst h1b
            rw [hid] at h2; simp at h2
            subst h2
            rw [his] at h3; simp at h3
      | ok isch =>
        cases api with
        | false =>
          refine ⟨by simp [parse, hps, hid, his], ?_, ?_, ?_⟩
          · intro id' hok; simp [parse, hps, hid, his] at hok
            subst hok
            exact ⟨s1, doc, rfl, hid⟩
          · intro e0 he; simp [parse, hps, hid, his] at he
          · simp [parse, hps, hid, his]
        | true =>
          rcases hap : E.api_schema isch s2 with ⟨s3, r3⟩
          cases r3 with
          | error e =>
            refine ⟨by simp [parse, hps, hid, his, hap], ?_, ?_, ?_⟩
            · intro id' hok; simp [parse, hps, hid, his, hap] at hok
            · intro e0 he; simp [parse, hps, hid, his, hap] at he; right; right
              exact ⟨id.hash, e, by rw [he], rfl, by simp [parse, hps, hid, his, hap]⟩
            · constructor
              · intro hmem
                exact ⟨rfl, s1, doc, id, s2, isch, rfl, hid, his⟩
              · intro hmem; simp [parse, hps, hid, his, hap]
          | ok aps =>
            refine ⟨by simp [parse, hps, hid, his, hap], ?_, ?_, ?_⟩
            · intro id' hok; simp [parse, hps, hid, his, hap] at hok
              subst hok
              exact ⟨s1, doc, rfl, hid⟩
            · intro e0 he; simp [parse, hps, hid, his, hap] at he
            · constructor
              · intro hmem
                exact ⟨rfl, s1, doc, id, s2, isch, rfl, hid, his⟩
              · intro hmem; simp [parse, hps, hid, his, hap]


/-- Witness for C2 at the all-success externals with derivation
requested: the trace starts with the generic parse and contains the
derivation stage. -/
theorem C2_pipeline_contract_witness :
    (parse extGood "xy" "n" true (0, ())).2.1.head? = some Stage.genericParse ∧
    Stage.derivation ∈ (parse extGood "xy" "n" true (0, ())).2.1 := by
  have h := C2_pipeline_contract extGood "xy" "n" true (0, ())
  exact ⟨h.1, (h.2.2.2).mpr
    ⟨rfl, (3, ()), docWithId, ⟨"Qm123"⟩, (8, ()), ⟨1⟩, rfl, by decide, rfl⟩⟩

/-! ## C9 -/

/-- C9: the validate-mode pipeline always passes the pinned
specification version 1.1.0 to the semantic validator (every semantic
validation stage in a `parse` trace carries version 1.1.0), while the
size-mode measured validation stage uses the "latest" specification
version (every successful `collect_sizes` trace contains a semantic
validation stage with version latest); consequently the two modes can
disagree on validity: there are externals and an input on which the
validate pipeline succeeds while the size-mode collection fails. -/
theorem C9_spec_versions :
    (∀ (ω : Type) (E : Externals ω) (raw name : String) (api : Bool) (s : St ω)
        (v : SpecVersion),
      Stage.semanticValidation v ∈ (parse E raw name api s).2.1 → v = SpecVersion.v1_1_0) ∧
    (∀ (ω : Type) (E : Externals ω) (raw name : String) (s s' : St ω) (tr : List Stage)
        (z : Sizes),
      Sizer.collect_sizes E raw name s = (s', tr, Outcome.ok z) →
        Stage.semanticValidation SpecVersion.latest ∈ tr) ∧
    (∃ (E : Externals Unit) (raw name : String) (s : St Unit),
      (∃ id, (parse E raw name false s).2.2 = Outcome.ok id) ∧
      (∃ s' tr e, Sizer.collect_sizes E raw name s = (s', tr, Outcome.err e))) := by
  refine ⟨?_, ?_, ?_⟩
  · intro ω E raw name api s v hmem
    unfold parse at hmem
    repeat' split at hmem
    all_goals simp_all
  · intro ω E raw name s s' tr z h
    unfold Sizer.collect_sizes at h
    repeat' split at h
    all_goals simp_all
    all_goals simp [← h.2.1]
  · refine ⟨extLatestFail, "xy", "n", (0, ()), ⟨⟨"Qm123"⟩, by decide⟩,
      (0, ()), [Stage.genericParse, Stage.semanticValidation SpecVersion.v1_1_0,
        Stage.derivation, Stage.genericParse, Stage.semanticValidation SpecVersion.latest],
      "schema uses features beyond 1.1.0", by decide⟩


/-- Witness for C9: the measured latest-version validation stage in the
concrete trace of the all-success externals. -/
theorem C9_spec_versions_witness :
    Stage.semanticValidation SpecVersion.latest ∈
      [Stage.genericParse, Stage.semanticValidation SpecVersion.v1_1_0, Stage.derivation,
       Stage.genericParse, Stage.semanticValidation SpecVersion.latest, Stage.derivation,
       Stage.apiTextMeasure] :=
  C9_spec_versions.2.1 Unit extGood "xy" "n" (0, ()) (11, ())
    [Stage.genericParse, Stage.semanticValidation SpecVersion.v1_1_0, Stage.derivation,
     Stage.genericParse, Stage.semanticValidation SpecVersion.latest, Stage.derivation,
     Stage.apiTextMeasure] ⟨2, 3, 7, 11, 42, 9⟩ (by decide)

/-! ## C8 -/

/-- C8 amended: in batch mode every `(name, raw)` source handed to the
Runner arises from some input line as follows — the doubled-backslash
collapse is applied to the raw line FIRST, the collapsed line is then
JSON-decoded into the record, the name is the fixed prefix `"sgd"`
followed by the decimal id, and the schema handed over is the decoded
record's schema field as-is (no further collapsing).  This corrects the
claim's decode-then-collapse order, which differs whenever collapsing
creates a new JSON escape sequence. -/
theorem C8_batch_decoding {ω : Type} (E : Externals ω) (mode : RunMode) (api : Bool) :
    ∀ (lines : List String) (first : Bool) (s : St ω),
      ∀ src ∈ (runBatchLines E mode api lines first s).handed,
        ∃ l ∈ lines, ∃ entry, decodeEntry (collapseBackslashes l) = some entry ∧
          src = ("sgd" ++ toString entry.id, entry.schema) := by
  intro lines
  induction lines with
  | nil =>
    intro first s src hsrc
    simp [runBatchLines] at hsrc
  | cons l rest ih =>
    intro first s src hsrc
    simp only [runBatchLines] at hsrc
    split at hsrc
    · simp at hsrc
    · next entry hdec =>
      split at hsrc
      · next first2 s2 out errs ex heq2 =>
        simp at hsrc
        exact ⟨l, by simp, entry, hdec, by rw [hsrc]⟩
      · next first2 s2 out errs heq2 =>
        simp at hsrc
        rcases hsrc with h | h
        · exact ⟨l, by simp, entry, hdec, by rw [h]⟩
        · obtain ⟨l2, hl2, entry2, hdec2, hsrc2⟩ := ih first2 s2 src h
          exact ⟨l2, by simp [hl2], entry2, hdec2, hsrc2⟩


/-- Witness for C8 on a concrete one-line batch: the handed source
`("sgd7", "s1")` arises from the line by collapse-then-decode. -/
theorem C8_batch_decoding_witness :
    ∃ l ∈ [c8good], ∃ entry, decodeEntry (collapseBackslashes l) = some entry ∧
      (("sgd7", "s1") : String × String) = ("sgd" ++ toString entry.id, entry.schema) :=
  C8_batch_decoding extGood RunMode.validate false [c8good] true (0, ()) ("sgd7", "s1")
    (by decide)

/-! ## C4 -/

/-- Larger output lists preserve a diagnosed halt. -/
theorem DiagnosedHalt_mono {out out2 errs errs2 : List String} {ex : PExit}
    (ho : out ⊆ out2) (he : errs ⊆ errs2) (h : DiagnosedHalt out errs ex) :
    DiagnosedHalt out2 errs2 ex := by
  rcases h with ⟨e, hex, hm | hm⟩ | ⟨m, hex, hm⟩
  · exact Or.inl ⟨e, hex, Or.inl (ho hm)⟩
  · exact Or.inl ⟨e, hex, Or.inr (he hm)⟩
  · exact Or.inr ⟨m, hex, hm⟩

/-- The pipeline only panics with the identifier-format message. -/
theorem parse_panicked_msg {ω : Type} (E : Externals ω) (raw name : String) (api : Bool)
    (s : St ω) {s2 : St ω} {tr : List Stage} {m : String}
    (h : parse E raw name api s = (s2, tr, Outcome.panicked m)) :
    m = "subgraph id is not a valid deployment hash" := by
  rcases hps : E.parse_schema raw s with ⟨s1, r1⟩
  cases r1 with
  | error e => simp [parse, hps] at h
  | ok doc =>
    cases hid : subgraph_id E doc with
    | err m2 => exact absurd hid (subgraph_id_ne_err E doc m2)
    | panicked m2 =>
      simp [parse, hps, hid] at h
      rw [← h.2.2]
      exact subgraph_id_panic_msg E doc m2 hid
    | ok id =>
      rcases his : E.inputSchema_parse SpecVersion.v1_1_0 raw id.hash s1 with ⟨s3, r2⟩
      cases r2 with
      | error e => simp [parse, hps, hid, his] at h
      | ok isch =>
        cases api with
        | false => simp [parse, hps, hid, his] at h
        | true =>
          rcases hap : E.api_schema isch s3 with ⟨s4, r3⟩
          cases r3 with
          | error e => simp [parse, hps, hid, his, hap] at h
          | ok aps => simp [parse, hps, hid, his, hap] at h

/-- The profiler `collect_sizes` only panics with the identifier-format message. -/
theorem collect_sizes_panicked_msg {ω : Type} (E : Externals ω) (raw name : String)
    (s : St ω) {s2 : St ω} {tr : List Stage} {m : String}
    (h : Sizer.collect_sizes E raw name s = (s2, tr, Outcome.panicked m)) :
    m = "subgraph id is not a valid deployment hash" := by
  rcases hp : parse E raw name true s with ⟨s1, tr0, o⟩
  cases o with
  | err e => simp [Sizer.collect_sizes, hp] at h
  | panicked m2 =>
    simp [Sizer.collect_sizes, hp] at h
    rw [← h.2.2]
    exact parse_panicked_msg E raw name true s hp
  | ok id =>
    simp only [Sizer.collect_sizes, hp] at h
    repeat' split at h
    all_goals simp_all

/-- A halting runner step is a diagnosed halt. -/
theorem runStep_halt {ω : Type} (E : Externals ω) (mode : RunMode) (api first : Bool)
    (raw name : String) (s : St ω) {first2 : Bool} {s2 : St ω} {out errs : List String}
    {ex : PExit}
    (h : runStep E mode api first raw name s = (first2, s2, out, errs, some ex)) :
    DiagnosedHalt out errs ex := by
  cases mode with
  | validate =>
    unfold runStep Validator.run at h
    rcases hp : parse E raw name api s with ⟨s1, tr, o⟩
    rw [hp] at h
    cases o with
    | ok id => simp at h
    | err e =>
      simp at h
      obtain ⟨-, -, hout, -, hex⟩ := h
      exact Or.inl ⟨e, hex.symm, Or.inl (by rw [← hout]; simp)⟩
    | panicked m =>
      simp at h
      obtain ⟨-, -, -, -, hex⟩ := h
      exact Or.inr ⟨m, hex.symm, Or.inr (Or.inr (parse_panicked_msg E raw name api s hp))⟩
  | size =>
    unfold runStep Sizer.run at h
    rcases hc : Sizer.collect_sizes E raw name s with ⟨s1, tr, o⟩
    rw [hc] at h
    cases o with
    | ok z => simp at h
    | err e =>
      simp at h
      obtain ⟨-, -, -, herr, hex⟩ := h
      exact Or.inl ⟨e, hex.symm, Or.inr (by rw [← herr]; simp)⟩
    | panicked m =>
      simp at h
      obtain ⟨-, -, -, -, hex⟩ := h
      exact Or.inr ⟨m, hex.symm,
        Or.inr (Or.inr (collect_sizes_panicked_msg E raw name s hc))⟩

/-- A halting batch-line loop is a diagnosed halt. -/
theorem runBatchLines_halt {ω : Type} (E : Externals ω) (mode : RunMode) (api : Bool) :
    ∀ (lines : List String) (first : Bool) (s : St ω) (ex : PExit),
      (runBatchLines E mode api lines first s).halt = some ex →
      DiagnosedHalt (runBatchLines E mode api lines first s).stdout
        (runBatchLines E mode api lines first s).stderr ex := by
  intro lines
  induction lines with
  | nil => intro first s ex hex; simp [runBatchLines] at hex
  | cons l rest ih =>
    intro first s ex hex
    cases hdec : decodeEntry (collapseBackslashes l) with
    | none =>
      simp [runBatchLines, hdec] at hex ⊢
      exact Or.inr ⟨"line is valid json", hex.symm, Or.inr (Or.inl rfl)⟩
    | some entry =>
      rcases hstep : runStep E mode api first entry.schema ("sgd" ++ toString entry.id) s
        with ⟨first2, s2, out, errs, halt⟩
      cases halt with
      | some ex2 =>
        simp [runBatchLines, hdec, hstep] at hex ⊢
        subst hex
        exact runStep_halt E mode api first entry.schema ("sgd" ++ toString entry.id) s hstep
      | none =>
        simp [runBatchLines, hdec, hstep] at hex ⊢
        have hd := ih first2 s2 ex hex
        exact DiagnosedHalt_mono (List.subset_append_right _ _)
          (List.subset_append_right _ _) hd

/-- A halting main loop is a diagnosed halt. -/
theorem mainLoop_halt {ω : Type} (E : Externals ω) (batch : Bool) (mode : RunMode)
    (api : Bool) (fs : FileSystem) :
    ∀ (paths : List String) (first : Bool) (s : St ω) (ex : PExit),
      (mainLoop E batch mode api fs paths first s).halt = some ex →
      DiagnosedHalt (mainLoop E batch mode api fs paths first s).stdout
        (mainLoop E batch mode api fs paths first s).stderr ex := by
  intro paths
  induction paths with
  | nil => intro first s ex hex; simp [mainLoop] at hex
  | cons p rest ih =>
    intro first s ex hex
    cases batch with
    | true =>
      cases hrd : readFile fs p with
      | none =>
        simp [mainLoop, hrd] at hex ⊢
        exact Or.inr ⟨"file exists", hex.symm, Or.inl rfl⟩
      | some content =>
        rcases hbl : runBatchLines E mode api (rustLines content) first s
          with ⟨first2, s2, handed, out, errs, halt⟩
        cases halt with
        | some ex2 =>
          simp [mainLoop, hrd, hbl] at hex ⊢
          subst hex
          have hd := runBatchLines_halt E mode api (rustLines content) first s ex2
            (by rw [hbl])
          rw [hbl] at hd
          exact DiagnosedHalt_mono (by simp) (by intro x hx; simp_all) hd
        | none =>
          simp [mainLoop, hrd, hbl] at hex ⊢
          have hd := ih first2 s2 ex hex
          refine DiagnosedHalt_mono (List.subset_append_right _ _) ?_ hd
          intro x hx; simp [hx]
    | false =>
      cases hrd : readFile fs p with
      | none =>
        simp [mainLoop, hrd] at hex ⊢
        exact Or.inr ⟨"file exists", hex.symm, Or.inl rfl⟩
      | some raw =>
        rcases hstep : runStep E mode api first raw p s with ⟨first2, s2, out, errs, halt⟩
        cases halt with
        | some ex2 =>
          simp [mainLoop, hrd, hstep] at hex ⊢
          subst hex
          have hd := runStep_halt E mode api first raw p s hstep
          exact DiagnosedHalt_mono (by simp) (by intro x hx; simp [hx]) hd
        | none =>
          simp [mainLoop, hrd, hstep] at hex ⊢
          have hd := ih first2 s2 ex hex
          refine DiagnosedHalt_mono (List.subset_append_right _ _) ?_ hd
          intro x hx; simp [hx]

/-- C4 amended: the process exits 0 when the source loop runs to
completion (no failure); every other termination is a "diagnosed halt":
either `exit(1)` after an `Error:` diagnostic line was printed (to
standard output in validate mode, to the error stream in size mode), or
a panic — the fatal aborts for I/O errors (`file exists`), decode errors
(`line is valid json`) and identifier-format errors (`subgraph id is not
a valid deployment hash`) — which terminates with the Rust panic status,
not with status 1. -/
theorem C4_exit_modes {ω : Type} (E : Externals ω) (opts : Opts) (fs : FileSystem)
    (s : St ω) :
    ((mainLoop E opts.batch opts.mode opts.api fs opts.schemas true s).halt = none →
      (mainRun E opts fs s).exit = PExit.exited 0) ∧
    ((mainRun E opts fs s).exit = PExit.exited 0 ∨
      DiagnosedHalt (mainRun E opts fs s).stdout (mainRun E opts fs s).stderr
        (mainRun E opts fs s).exit) := by
  rcases hml : mainLoop E opts.batch opts.mode opts.api fs opts.schemas true s
    with ⟨f2, s2, handed, out, errs, halt⟩
  constructor
  · intro hnone
    simp at hnone
    simp [mainRun, hml, hnone]
  · cases halt with
    | none => left; simp [mainRun, hml]
    | some ex =>
      right
      have hd := mainLoop_halt E opts.batch opts.mode opts.api fs opts.schemas true s ex
        (by rw [hml])
      rw [hml] at hd
      simp at hd
      simp [mainRun, hml]
      exact hd


/-- Witness for C4: an all-success validate run exits 0. -/
theorem C4_exit_modes_witness :
    (mainRun extGood ⟨false, false, RunMode.validate, ["f"]⟩ [("f", "x")] (0, ())).exit
      = PExit.exited 0 :=
  (C4_exit_modes extGood ⟨false, false, RunMode.validate, ["f"]⟩ [("f", "x")] (0, ())).1
    (by decide)

/-! ## C6 -/

/-- C6: in validate mode (both for file sources and for batch lines) a
successfully validated source contributes exactly one pass line
`Schema name[id]: OK` and processing continues with the remaining
sources; on a source whose pipeline fails with a recoverable error, the
error line `Error: ...` is printed and the loop halts immediately with
`exit(1)` — and the result is identical whatever sources follow, so no
subsequent source is processed. -/
theorem C6_validate_fail_fast {ω : Type} (E : Externals ω) (api : Bool) (fs : FileSystem) :
    (∀ (p : String) (rest rest2 : List String) (raw : String) (first : Bool) (s : St ω),
      readFile fs p = some raw →
      (∀ s2 tr id, parse E raw p api s = (s2, tr, Outcome.ok id) →
        mainLoop E false RunMode.validate api fs (p :: rest) first s =
          ⟨(mainLoop E false RunMode.validate api fs rest first s2).first,
           (mainLoop E false RunMode.validate api fs rest first s2).st,
           (p, raw) :: (mainLoop E false RunMode.validate api fs rest first s2).handed,
           ("Schema " ++ p ++ "[" ++ id.hash ++ "]: OK") ::
             (mainLoop E false RunMode.validate api fs rest first s2).stdout,
           ("Validating schema from " ++ p) ::
             (mainLoop E false RunMode.validate api fs rest first s2).stderr,
           (mainLoop E false RunMode.validate api fs rest first s2).halt⟩) ∧
      (∀ s2 tr e, parse E raw p api s = (s2, tr, Outcome.err e) →
        mainLoop E false RunMode.validate api fs (p :: rest) first s =
          ⟨first, s2, [(p, raw)], ["Error: " ++ e],
           ["Validating schema from " ++ p], some (PExit.exited 1)⟩ ∧
        mainLoop E false RunMode.validate api fs (p :: rest) first s =
          mainLoop E false RunMode.validate api fs (p :: rest2) first s)) ∧
    (∀ (l : String) (rest rest2 : List String) (entry : Entry) (first : Bool) (s : St ω),
      decodeEntry (collapseBackslashes l) = some entry →
      (∀ s2 tr id, parse E entry.schema ("sgd" ++ toString entry.id) api s
          = (s2, tr, Outcome.ok id) →
        runBatchLines E RunMode.validate api (l :: rest) first s =
          ⟨(runBatchLines E RunMode.validate api rest first s2).first,
           (runBatchLines E RunMode.validate api rest first s2).st,
           ("sgd" ++ toString entry.id, entry.schema) ::
             (runBatchLines E RunMode.validate api rest first s2).handed,
           ("Schema " ++ ("sgd" ++ toString entry.id) ++ "[" ++ id.hash ++ "]: OK") ::
             (runBatchLines E RunMode.validate api rest first s2).stdout,
           (runBatchLines E RunMode.validate api rest first s2).stderr,
           (runBatchLines E RunMode.validate api rest first s2).halt⟩) ∧
      (∀ s2 tr e, parse E entry.schema ("sgd" ++ toString entry.id) api s
          = (s2, tr, Outcome.err e) →
        runBatchLines E RunMode.validate api (l :: rest) first s =
          ⟨first, s2, [("sgd" ++ toString entry.id, entry.schema)], ["Error: " ++ e], [],
           some (PExit.exited 1)⟩ ∧
        runBatchLines E RunMode.validate api (l :: rest) first s =
          runBatchLines E RunMode.validate api (l :: rest2) first s)) := by
  constructor
  · intro p rest rest2 raw first s hread
    constructor
    · intro s2 tr id hparse
      simp [mainLoop, hread, runStep, Validator.run, hparse]
    · intro s2 tr e hparse
      constructor
      · simp [mainLoop, hread, runStep, Validator.run, hparse]
      · simp [mainLoop, hread, runStep, Validator.run, hparse]
  · intro l rest rest2 entry first s hdec
    constructor
    · intro s2 tr id hparse
      simp [runBatchLines, hdec, runStep, Validator.run, hparse]
    · intro s2 tr e hparse
      constructor
      · simp [runBatchLines, hdec, runStep, Validator.run, hparse]
      · simp [runBatchLines, hdec, runStep, Validator.run, hparse]


/-- Witness for C6: a failing first batch record halts with exit 1
after its error line, and the following record is irrelevant. -/
theorem C6_validate_fail_fast_witness :
    runBatchLines extParseFail RunMode.validate false [c8good, "x"] true (0, ()) =
      ⟨true, (0, ()), [("sgd7", "s1")],
       ["Error: Failed to parse schema sgdsgd7: bad syntax"], [],
       some (PExit.exited 1)⟩ ∧
    runBatchLines extParseFail RunMode.validate false [c8good, "x"] true (0, ()) =
      runBatchLines extParseFail RunMode.validate false [c8good, "y"] true (0, ()) :=
  ((C6_validate_fail_fast extParseFail false []).2 c8good ["x"] ["y"] ⟨7, "s1"⟩ true (0, ())
    (by decide)).2 (0, ()) [Stage.genericParse]
    "Failed to parse schema sgdsgd7: bad syntax" (by decide)

/-! ## C7 -/

/-- No decimal digit character is a comma. -/
theorem digitChar_ne_comma (n : Nat) : Nat.digitChar n ≠ ',' := by
  match n with
  | 0 => decide
  | 1 => decide
  | 2 => decide
  | 3 => decide
  | 4 => decide
  | 5 => decide
  | 6 => decide
  | 7 => decide
  | 8 => decide
  | 9 => decide
  | 10 => decide
  | 11 => decide
  | 12 => decide
  | 13 => decide
  | 14 => decide
  | 15 => decide
  | (m + 16) =>
    have h0 : m + 16 ≠ 0 := by omega
    have h1 : m + 16 ≠ 1 := by omega
    have h2 : m + 16 ≠ 2 := by omega
    have h3 : m + 16 ≠ 3 := by omega
    have h4 : m + 16 ≠ 4 := by omega
    have h5 : m + 16 ≠ 5 := by omega
    have h6 : m + 16 ≠ 6 := by omega
    have h7 : m + 16 ≠ 7 := by omega
    have h8 : m + 16 ≠ 8 := by omega
    have h9 : m + 16 ≠ 9 := by omega
    have h10 : m + 16 ≠ 10 := by omega
    have h11 : m + 16 ≠ 11 := by omega
    have h12 : m + 16 ≠ 12 := by omega
    have h13 : m + 16 ≠ 13 := by omega
    have h14 : m + 16 ≠ 14 := by omega
    have h15 : m + 16 ≠ 15 := by omega
    simp [Nat.digitChar, h0, h1, h2, h3, h4, h5, h6, h7, h8, h9, h10, h11, h12, h13,
      h14, h15]

/-- Every character produced by `Nat.toDigitsCore` is a digit character
or comes from the accumulator. -/
theorem toDigitsCore_mem (b : Nat) : ∀ (fuel n : Nat) (acc : List Char) (c : Char),
    c ∈ Nat.toDigitsCore b fuel n acc → c ∈ acc ∨ ∃ m, c = Nat.digitChar m := by
  intro fuel
  induction fuel with
  | zero => intro n acc c h; exact Or.inl h
  | succ fuel ih =>
    intro n acc c h
    simp only [Nat.toDigitsCore] at h
    split at h
    · rcases List.mem_cons.mp h with hc | hc
      · exact Or.inr ⟨n % b, hc⟩
      · exact Or.inl hc
    · rcases ih (n / b) (Nat.digitChar (n % b) :: acc) c h with hc | hc
      · rcases List.mem_cons.mp hc with hc2 | hc2
        · exact Or.inr ⟨n % b, hc2⟩
        · exact Or.inl hc2
      · exact Or.inr hc

/-- The decimal rendering of a natural number contains no comma. -/
theorem comma_not_mem_natRepr (n : Nat) : (',' : Char) ∉ (toString n).toList := by
  intro h
  have h2 : (',' : Char) ∈ Nat.toDigitsCore 10 (n + 1) n [] := h
  rcases toDigitsCore_mem 10 (n + 1) n [] ',' h2 with hc | ⟨m, hc⟩
  · simp at hc
  · exact digitChar_ne_comma m hc.symm

/-- A size row over a comma-free name has exactly 7 comma-separated
fields. -/
theorem countCommaFields_sizeRow (name : String) (z : Sizes) (h : (',' : Char) ∉ name.toList) :
    countCommaFields (sizeRow name z) = 7 := by
  have hfree : ∀ (l : List Char), (∀ c ∈ l, ¬ c = ',') →
      (l.filter (fun c => decide (c = ','))).length = 0 := by
    intro l hl
    rw [List.length_eq_zero, List.filter_eq_nil_iff]
    intro a ha
    simpa using hl a ha
  have hname : (name.data.filter (fun c => decide (c = ','))).length = 0 :=
    hfree name.data (fun c hc h2 => h (h2 ▸ hc))
  have hnum : ∀ (m : Nat), ((toString m).data.filter (fun c => decide (c = ','))).length = 0 :=
    fun m => hfree (toString m).data
      (fun c hc h2 => comma_not_mem_natRepr m (h2 ▸ hc))
  simp only [countCommaFields, sizeRow, String.toList, String.data_append,
    List.filter_append, List.length_append, hname, hnum]
  rfl


/-- A successful `collect_sizes` records the raw text's byte length. -/
theorem collect_sizes_text {ω : Type} (E : Externals ω) (raw name : String) (s : St ω)
    {s2 : St ω} {tr : List Stage} {z : Sizes}
    (h : Sizer.collect_sizes E raw name s = (s2, tr, Outcome.ok z)) :
    z.text = raw.utf8ByteSize := by
  unfold Sizer.collect_sizes at h
  repeat' split at h
  all_goals simp_all
  all_goals rw [← h.2.2]

/-- Size-mode output shapes compose. -/
theorem SizeCsvOut_append {ω : Type} {E : Externals ω} {a b c : Bool}
    {out1 out2 : List String} {handed1 handed2 : List (String × String)}
    {recs1 recs2 : List (String × String × Sizes)}
    (h1 : SizeCsvOut E a b out1 handed1 recs1)
    (h2 : SizeCsvOut E b c out2 handed2 recs2) :
    SizeCsvOut E a c (out1 ++ out2) (handed1 ++ handed2) (recs1 ++ recs2) := by
  obtain ⟨hp1, hc1⟩ := h1
  obtain ⟨hp2, hc2⟩ := h2
  refine ⟨?_, ?_⟩
  · intro t ht
    rcases List.mem_append.mp ht with ht2 | ht2
    · obtain ⟨hm, hex⟩ := hp1 t ht2
      exact ⟨List.mem_append_left _ hm, hex⟩
    · obtain ⟨hm, hex⟩ := hp2 t ht2
      exact ⟨List.mem_append_right _ hm, hex⟩
  · rcases hc1 with ⟨ha, hb, ho, hr⟩ | ⟨ha, hb, ho⟩ | ⟨ha, hb, ho⟩ <;>
      rcases hc2 with ⟨hb2, hc, ho2, hr2⟩ | ⟨hb2, hc, ho2⟩ | ⟨hb2, hc, ho2⟩ <;>
      simp_all


/-- One size-mode runner step yields a well-shaped output fragment. -/
theorem sizerRun_size_csv {ω : Type} (E : Externals ω) (first api : Bool)
    (raw name : String) (s : St ω) :
    ∃ recs, SizeCsvOut E first (Sizer.run E first raw name api s).1
      (Sizer.run E first raw name api s).2.2.1 [(name, raw)] recs := by
  rcases hc : Sizer.collect_sizes E raw name s with ⟨s2, tr, o⟩
  cases o with
  | ok z =>
    refine ⟨[(name, raw, z)], ?_, ?_⟩
    · intro t ht
      rcases List.mem_cons.mp ht with rfl | ht2
      · exact ⟨by simp, s, s2, tr, hc⟩
      · simp at ht2
    · cases first
      · right; right; simp [Sizer.run, hc]
      · right; left; simp [Sizer.run, hc]
  | err e =>
    refine ⟨[], by simp, ?_⟩
    cases first
    · right; right; simp [Sizer.run, hc]
    · right; left; simp [Sizer.run, hc]
  | panicked m =>
    refine ⟨[], by simp, ?_⟩
    cases first
    · right; right; simp [Sizer.run, hc]
    · right; left; simp [Sizer.run, hc]

/-- The batch-line loop in size mode yields a well-shaped output. -/
theorem runBatchLines_size_csv {ω : Type} (E : Externals ω) (api : Bool) :
    ∀ (lines : List String) (first : Bool) (s : St ω),
      ∃ recs, SizeCsvOut E first (runBatchLines E RunMode.size api lines first s).first
        (runBatchLines E RunMode.size api lines first s).stdout
        (runBatchLines E RunMode.size api lines first s).handed recs := by
  intro lines
  induction lines with
  | nil =>
    intro first s
    refine ⟨[], by simp, ?_⟩
    cases first
    · right; right; simp [runBatchLines]
    · left; simp [runBatchLines]
  | cons l rest ih =>
    intro first s
    cases hdec : decodeEntry (collapseBackslashes l) with
    | none =>
      refine ⟨[], by simp, ?_⟩
      cases first
      · right; right; simp [runBatchLines, hdec]
      · left; simp [runBatchLines, hdec]
    | some entry =>
      rcases hstep : Sizer.run E first entry.schema ("sgd" ++ toString entry.id) api s
        with ⟨first2, s2, out, errs, halt⟩
      obtain ⟨recs1, hs1⟩ := sizerRun_size_csv E first api entry.schema
        ("sgd" ++ toString entry.id) s
      rw [hstep] at hs1
      cases halt with
      | some ex =>
        refine ⟨recs1, ?_⟩
        have : runBatchLines E RunMode.size api (l :: rest) first s =
            ⟨first2, s2, [("sgd" ++ toString entry.id, entry.schema)], out, errs,
              some ex⟩ := by
          simp [runBatchLines, hdec, runStep, hstep]
        rw [this]
        exact hs1
      | none =>
        obtain ⟨recs2, hs2⟩ := ih first2 s2
        refine ⟨recs1 ++ recs2, ?_⟩
        have h3 : (runBatchLines E RunMode.size api (l :: rest) first s).stdout
              = out ++ (runBatchLines E RunMode.size api rest first2 s2).stdout ∧
            (runBatchLines E RunMode.size api (l :: rest) first s).first
              = (runBatchLines E RunMode.size api rest first2 s2).first ∧
            (runBatchLines E RunMode.size api (l :: rest) first s).handed
              = ("sgd" ++ toString entry.id, entry.schema)
                :: (runBatchLines E RunMode.size api rest first2 s2).handed := by
          refine ⟨?_, ?_, ?_⟩ <;> simp [runBatchLines, hdec, runStep, hstep]
        rw [h3.1, h3.2.1, h3.2.2]
        exact SizeCsvOut_append hs1 hs2


/-- The main loop in size mode yields a well-shaped standard output. -/
theorem mainLoop_size_csv {ω : Type} (E : Externals ω) (batch api : Bool)
    (fs : FileSystem) :
    ∀ (paths : List String) (first : Bool) (s : St ω),
      ∃ recs, SizeCsvOut E first
        (mainLoop E batch RunMode.size api fs paths first s).first
        (mainLoop E batch RunMode.size api fs paths first s).stdout
        (mainLoop E batch RunMode.size api fs paths first s).handed recs := by
  intro paths
  induction paths with
  | nil =>
    intro first s
    refine ⟨[], by simp, ?_⟩
    cases first
    · right; right; simp [mainLoop]
    · left; simp [mainLoop]
  | cons p rest ih =>
    intro first s
    cases batch with
    | true =>
      cases hrd : readFile fs p with
      | none =>
        refine ⟨[], by simp, ?_⟩
        cases first
        · right; right; simp [mainLoop, hrd]
        · left; simp [mainLoop, hrd]
      | some content =>
        rcases hbl : runBatchLines E RunMode.size api (rustLines content) first s
          with ⟨first2, s2, handed, out, errs, halt⟩
        obtain ⟨recs1, hs1⟩ := runBatchLines_size_csv E api (rustLines content) first s
        rw [hbl] at hs1
        cases halt with
        | some ex =>
          refine ⟨recs1, ?_⟩
          have : mainLoop E true RunMode.size api fs (p :: rest) first s =
              ⟨first2, s2, handed, out, ("Validating schemas from " ++ p) :: errs,
                some ex⟩ := by
            simp [mainLoop, hrd, hbl]
          rw [this]
          exact hs1
        | none =>
          obtain ⟨recs2, hs2⟩ := ih first2 s2
          refine ⟨recs1 ++ recs2, ?_⟩
          have h3 : (mainLoop E true RunMode.size api fs (p :: rest) first s).stdout
                = out ++ (mainLoop E true RunMode.size api fs rest first2 s2).stdout ∧
              (mainLoop E true RunMode.size api fs (p :: rest) first s).first
                = (mainLoop E true RunMode.size api fs rest first2 s2).first ∧
              (mainLoop E true RunMode.size api fs (p :: rest) first s).handed
                = handed
                  ++ (mainLoop E true RunMode.size api fs rest first2 s2).handed := by
            refine ⟨?_, ?_, ?_⟩ <;> simp [mainLoop, hrd, hbl]
          rw [h3.1, h3.2.1, h3.2.2]
          exact SizeCsvOut_append hs1 hs2
    | false =>
      cases hrd : readFile fs p with
      | none =>
        refine ⟨[], by simp, ?_⟩
        cases first
        · right; right; simp [mainLoop, hrd]
        · left; simp [mainLoop, hrd]
      | some raw =>
        rcases hstep : Sizer.run E first raw p api s with ⟨first2, s2, out, errs, halt⟩
        obtain ⟨recs1, hs1⟩ := sizerRun_size_csv E first api raw p s
        rw [hstep] at hs1
        cases halt with
        | some ex =>
          refine ⟨recs1, ?_⟩
          have : mainLoop E false RunMode.size api fs (p :: rest) first s =
              ⟨first2, s2, [(p, raw)], out,
                ["Validating schema from " ++ p] ++ errs, some ex⟩ := by
            simp [mainLoop, hrd, runStep, hstep]
          rw [this]
          exact hs1
        | none =>
          obtain ⟨recs2, hs2⟩ := ih first2 s2
          refine ⟨recs1 ++ recs2, ?_⟩
          have h3 : (mainLoop E false RunMode.size api fs (p :: rest) first s).stdout
                = out ++ (mainLoop E false RunMode.size api fs rest first2 s2).stdout ∧
              (mainLoop E false RunMode.size api fs (p :: rest) first s).first
                = (mainLoop E false RunMode.size api fs rest first2 s2).first ∧
              (mainLoop E false RunMode.size api fs (p :: rest) first s).handed
                = (p, raw)
                  :: (mainLoop E false RunMode.size api fs rest first2 s2).handed := by
            refine ⟨?_, ?_, ?_⟩ <;> simp [mainLoop, hrd, runStep, hstep]
          rw [h3.1, h3.2.1, h3.2.2]
          exact SizeCsvOut_append hs1 hs2


/-- The entry point `main` prints the loop's stdout whether or not it halted early. -/
theorem mainRun_stdout {ω : Type} (E : Externals ω) (opts : Opts) (fs : FileSystem)
    (s : St ω) :
    (mainRun E opts fs s).stdout
      = (mainLoop E opts.batch opts.mode opts.api fs opts.schemas true s).stdout := by
  unfold mainRun
  rcases mainLoop E opts.batch opts.mode opts.api fs opts.schemas true s
    with ⟨f, st, h, out, errs, halt⟩
  cases halt <;> rfl

/-- C7 amended: in size mode the standard output is either empty (the
sizer never ran) or the CSV header followed exactly by one data row per
successfully profiled source — so the header is printed exactly once and
before any data row.  Each data row belongs to a `(name, raw)` source
that the loop actually handed to the runner, its measurement record is
the result of the profiler's `collect_sizes` call on exactly that raw
text, it is built from exactly the 7 header fields, its `raw` field is
the byte length of that source's input text, and whenever the source's
name contains no comma the printed row splits into exactly 7
comma-separated fields.  (A name with a comma — possible for file paths
— makes the row split into more fields, the correction to the claim.) -/
theorem C7_csv_shape {ω : Type} (E : Externals ω) (opts : Opts) (fs : FileSystem)
    (s : St ω) (hmode : opts.mode = RunMode.size) :
    ∃ recs : List (String × String × Sizes),
      ((mainRun E opts fs s).stdout = [] ∨
        (mainRun E opts fs s).stdout
          = csvHeader :: recs.map (fun t => sizeRow t.1 t.2.2)) ∧
      (∀ t ∈ recs,
        (t.1, t.2.1)
          ∈ (mainLoop E opts.batch opts.mode opts.api fs opts.schemas true s).handed ∧
        (∃ s1 s2 tr, Sizer.collect_sizes E t.2.1 t.1 s1 = (s2, tr, Outcome.ok t.2.2)) ∧
        t.2.2.text = t.2.1.utf8ByteSize ∧
        (sizeRowFields t.1 t.2.2).length = 7 ∧
        ((',' : Char) ∉ t.1.toList → countCommaFields (sizeRow t.1 t.2.2) = 7)) := by
  obtain ⟨recs, hprov, hcase⟩ :=
    mainLoop_size_csv E opts.batch opts.api fs opts.schemas true s
  refine ⟨recs, ?_, ?_⟩
  · rw [mainRun_stdout, hmode]
    rcases hcase with ⟨-, -, ho, -⟩ | ⟨-, -, ho⟩ | ⟨hf, -, -⟩
    · left; exact ho
    · right; exact ho
    · exact absurd hf (by simp)
  · intro t ht
    obtain ⟨hm, s1, s2, tr, hcoll⟩ := hprov t ht
    exact ⟨by rw [hmode]; exact hm, ⟨s1, s2, tr, hcoll⟩,
      collect_sizes_text E t.2.1 t.1 s1 hcoll, rfl,
      fun hc => countCommaFields_sizeRow t.1 t.2.2 hc⟩

/-- Witness for C7: the shape theorem applied to a concrete
single-source size run. -/
theorem C7_csv_shape_witness :
    ∃ recs : List (String × String × Sizes),
      ((mainRun extGood ⟨false, false, RunMode.size, ["f"]⟩ [("f", "xy")] (0, ())).stdout
          = [] ∨
        (mainRun extGood ⟨false, false, RunMode.size, ["f"]⟩ [("f", "xy")] (0, ())).stdout
          = csvHeader :: recs.map (fun t => sizeRow t.1 t.2.2)) ∧
      (∀ t ∈ recs,
        (t.1, t.2.1) ∈ (mainLoop extGood false RunMode.size false [("f", "xy")]
          ["f"] true (0, ())).handed ∧
        (∃ s1 s2 tr, Sizer.collect_sizes extGood t.2.1 t.1 s1
          = (s2, tr, Outcome.ok t.2.2)) ∧
        t.2.2.text = t.2.1.utf8ByteSize ∧
        (sizeRowFields t.1 t.2.2).length = 7 ∧
        ((',' : Char) ∉ t.1.toList → countCommaFields (sizeRow t.1 t.2.2) = 7)) :=
  C7_csv_shape extGood ⟨false, false, RunMode.size, ["f"]⟩ [("f", "xy")] (0, ()) rfl

end SchemaValidate
